import Mathlib

/-!
Verification development for SlideGauge (src/slidegauge.py), a static
analyzer for Marp Markdown decks.  The Python source is shallowly embedded:
pure functions become Lean functions over `List Char` / `String`, Python
floats become exact rationals (`ℚ`), Python ints become `Int`, fallible code
returns `Except`.  Dictionaries with insertion order are modelled as
association lists.  Each definition mirrors the Python function of the same
name; line references point into src/slidegauge.py.
-/

/-- Python whitespace class, as used by str.strip / str.split / regex \s
(ASCII part; the analyzed Markdown lines contain only these). -/
def isPySpace (c : Char) : Bool :=
  c = ' ' || c = '\t' || c = '\n' || c = '\r' || c = '\x0b' || c = '\x0c'

/-- Python str.lstrip() on a list of characters. -/
def lstripL (cs : List Char) : List Char := cs.dropWhile isPySpace

/-- Python str.rstrip() on a list of characters. -/
def rstripL (cs : List Char) : List Char := (cs.reverse.dropWhile isPySpace).reverse

/-- Python str.strip() on a list of characters. -/
def stripL (cs : List Char) : List Char := rstripL (lstripL cs)

/-- Python str.strip() on a String. -/
def stripS (s : String) : String := String.mk (stripL s.toList)

/-- First index at which `needle` occurs in `hay` (Python str.find, for the
cases where the needle is present; `none` models find returning -1). -/
def findSubIdx : List Char → List Char → Option Nat
  | [], needle => if needle.isEmpty then some 0 else none
  | c :: rest, needle =>
    if needle.isPrefixOf (c :: rest) then some 0
    else (findSubIdx rest needle).map (· + 1)

/-- Python `needle in hay` substring containment. -/
def containsSub (hay needle : List Char) : Bool := (findSubIdx hay needle).isSome

/-- The slide separator marker `---` (trimmed form). -/
def sepMarker : List Char := "---".toList

/-- The backtick code fence token. -/
def btFence : List Char := "```".toList

/-- The tilde code fence token. -/
def tildeFence : List Char := "~~~".toList

/-- `is_fence` from split_slides (src lines 131-135): a line whose lstripped
form starts with a fence token opens a code block with that token. -/
def is_fence (l : List Char) : Option (List Char) :=
  let s := lstripL l
  if btFence.isPrefixOf s then some btFence
  else if tildeFence.isPrefixOf s then some tildeFence
  else none

/-- The BODY/CODE state machine of split_slides (src lines 147-166).
State `none` is BODY; `some f` is CODE with opening fence token `f`.
Returns the list of slide line-buffers. -/
def splitCore : List (List Char) → List (List Char) → Option (List Char) →
    List (List (List Char))
  | [], buf, _ => if buf.isEmpty then [] else [buf]
  | ln :: rest, buf, none =>
    match is_fence ln with
    | some f => splitCore rest (buf ++ [ln]) (some f)
    | none =>
      if stripL ln = sepMarker then
        (if buf.isEmpty then [] else [buf]) ++ splitCore rest [] none
      else splitCore rest (buf ++ [ln]) none
  | ln :: rest, buf, some f =>
    if f.isPrefixOf (lstripL ln) then splitCore rest (buf ++ [ln]) none
    else splitCore rest (buf ++ [ln]) (some f)

/-- Initial-frontmatter skipping of split_slides (src lines 137-145): if the
first line trims to `---`, everything up to and including the next line that
trims to `---` is discarded. -/
def dropFrontmatter (lines : List (List Char)) : List (List Char) :=
  match lines with
  | [] => []
  | l :: rest =>
    if stripL l = sepMarker then
      (rest.dropWhile (fun x => !(stripL x = sepMarker : Bool))).drop 1
    else l :: rest

/-- `split_slides` (src lines 127-168): fence-aware slide splitter.  Each
buffer is joined with newlines and stripped; empty results are dropped. -/
def split_slides (lines : List String) : List String :=
  let bufs := splitCore (dropFrontmatter (lines.map (fun s => s.toList))) [] none
  ((bufs.map (fun b => stripL (List.intercalate ['\n'] b))).filter
    (fun t => !t.isEmpty)).map (fun t => String.mk t)

/-- Sanity example: the fence-aware split from the self-test (src line 1111). -/
example :
    split_slides ["# A", "```", "code with ---", "```", "---", "# B"] =
      ["# A\n```\ncode with ---\n```", "# B"] := by decide

/-- Does `p` hold of some suffix of the list?  Models an unanchored regex
search: re.search tries a match starting at every position. -/
def anySuffix (p : List Char → Bool) : List Char → Bool
  | [] => p []
  | c :: rest => p (c :: rest) || anySuffix p rest

/-- Anchored match of the regex `https?://[^\s\)]+` (src line 343): `http`,
optional `s`, `://`, then at least one character that is neither whitespace
nor a closing parenthesis. -/
def urlAt : List Char → Bool
  | 'h' :: 't' :: 't' :: 'p' :: 's' :: ':' :: '/' :: '/' :: c :: _ =>
    !(isPySpace c || c = ')')
  | 'h' :: 't' :: 't' :: 'p' :: ':' :: '/' :: '/' :: c :: _ =>
    !(isPySpace c || c = ')')
  | _ => false

/-- Anchored match of `[^\)]+\)`: one or more non-`)` characters followed by
`)` — equivalently, a first character that is not `)` and some later `)`. -/
def urlClose : List Char → Bool
  | [] => false
  | c :: rest => !(c = ')') && rest.contains ')'

/-- Anchored match of `https?://[^\)]+\)` (tail of the wrapped-link regex,
src line 345). -/
def linkUrlOk : List Char → Bool
  | 'h' :: 't' :: 't' :: 'p' :: 's' :: ':' :: '/' :: '/' :: rest => urlClose rest
  | 'h' :: 't' :: 't' :: 'p' :: ':' :: '/' :: '/' :: rest => urlClose rest
  | _ => false

/-- Anchored match of the regex `\[([^\]]*)\]\(https?://[^\)]+\)`
(src line 345).  `[^\]]*` cannot cross a `]`, so the bracket that closes the
link text is necessarily the first `]` after the opening `[`. -/
def wrappedAt : List Char → Bool
  | '[' :: rest =>
    match rest.dropWhile (fun c => !(c = ']' : Bool)) with
    | ']' :: '(' :: tail => linkUrlOk tail
    | _ => false
  | _ => false

/-- re.search of the bare-URL pattern anywhere in the line (src line 343). -/
def hasBareUrlToken (line : List Char) : Bool := anySuffix urlAt line

/-- re.search of the Markdown-wrapped-link pattern anywhere in the line
(src line 345). -/
def hasWrappedLink (line : List Char) : Bool := anySuffix wrappedAt line

/-- The bare-URL increment contributed by one non-fenced content line
(src lines 342-346): count 1 if the line has an `http(s)://` match and the
line has no Markdown-wrapped `http(s)` link anywhere, else 0. -/
def scanLineBareUrl (line : String) : Int :=
  if hasBareUrlToken line.toList then
    if hasWrappedLink line.toList then 0 else 1
  else 0

/-- `rel_lum` (src lines 380-383): relative luminance of an RGB triple with
channels normalized to [0,1].  Source arithmetic is IEEE double; the
embedding computes the exact rational value. -/
def rel_lum (rgb : Nat × Nat × Nat) : ℚ :=
  let r : ℚ := (rgb.1 : ℚ) / 255
  let g : ℚ := (rgb.2.1 : ℚ) / 255
  let b : ℚ := (rgb.2.2 : ℚ) / 255
  (2126 / 10000) * r + (7152 / 10000) * g + (722 / 10000) * b

/-- `contrast_ratio` (src lines 385-389).  The source gives `bg` the default
value (255,255,255) and every call site uses that default. -/
def contrast_ratio (rgb bg : Nat × Nat × Nat) : ℚ :=
  let l1 := rel_lum rgb
  let l2 := rel_lum bg
  let hi := if l1 > l2 then l1 else l2
  let lo := if l1 > l2 then l2 else l1
  (hi + 5 / 100) / (lo + 5 / 100)

/-- Round a rational to the nearest integer, ties to even (the rounding of
Python float formatting). -/
def roundHalfEven (x : ℚ) : Int :=
  let f := Rat.floor x
  let r := x - (f : ℚ)
  if r > 1 / 2 then f + 1
  else if r < 1 / 2 then f
  else if f % 2 = 0 then f else f + 1

/-- Two-decimal rendering of a nonnegative rational. -/
def q2strNN (q : ℚ) : String :=
  let n := (roundHalfEven (q * 100)).toNat
  let ip := n / 100
  let fp := n % 100
  toString ip ++ "." ++ (if fp < 10 then "0" else "") ++ toString fp

/-- Stand-in for Python float formatting with format spec `.2f`, used only
inside finding messages (src lines 588, 592).  The source formats an IEEE
double; this renders the exact rational to two decimals. -/
def q2str (q : ℚ) : String :=
  if q < 0 then "-" ++ q2strNN (-q) else q2strNN q

/-- `Finding` (src lines 95-101).  The `patch` field is omitted: it defaults
to the empty tuple and no code path in the source ever sets it. -/
structure Finding where
  rule : String
  severity : String
  message : String
  deduction : Int
deriving DecidableEq

/-- The metrics record produced by `scan_slide` (src lines 215-355), with the
same keys.  Counts are `Int` (Python ints); contrast values are exact
rationals. -/
structure Metrics where
  title_length : Int
  content_chars : Int
  content_chars_adjusted : Int
  bullets : Int
  lines : Int
  code_blocks : List (Int × String)
  has_table : Bool
  has_chart : Bool
  is_exercise : Bool
  images : List (String × String)
  colors : List (String × (Nat × Nat × Nat) × ℚ)
  min_contrast : Option ℚ
  unique_colors : Int
  bare_urls : Int
deriving DecidableEq

/-- A per-slide configuration patch (the JSON object of an inline directive,
deep-merged over the global configuration in `run_rules_on_slide`).  The
nested Python dict is flattened to the leaves that the rule set reads;
`weights` and `buckets` are key-merged dictionaries.  Leaves a patch could
add but no rule ever reads are observationally inert and not modelled. -/
structure ConfigPatch where
  title_max_main : Option Int
  content_max_chars : Option Int
  content_min_chars : Option Int
  content_exercise_max_chars : Option Int
  content_max_lines : Option Int
  content_max_bullets : Option Int
  code_max_simple : Option Int
  code_max_complex : Option Int
  color_min_contrast_warn : Option ℚ
  color_min_contrast_error : Option ℚ
  color_max_colors : Option Int
  weights : List (String × Int)
  buckets : List (String × List String)
deriving DecidableEq

/-- The patch with no entries (Python `{}`). -/
def emptyPatch : ConfigPatch :=
  ⟨none, none, none, none, none, none, none, none, none, none, none, [], []⟩

/-- Per-slide overrides: `{"disabled": [...], "rules": {...}}` (src line 213). -/
structure Overrides where
  disabled : List String
  rules : ConfigPatch
deriving DecidableEq

/-- `Slide` (src lines 103-110). -/
structure Slide where
  index : Nat
  uuid : String
  title : String
  body : String
  metrics : Metrics
  overrides : Overrides
deriving DecidableEq

/-- `SlideResult` (src lines 112-121).  `bucket_scores` is an ordered
association list modelling the Python dict. -/
structure SlideResult where
  index : Nat
  uuid : String
  title : String
  body : String
  metrics : Metrics
  diagnostics : List Finding
  score : Int
  bucket_scores : List (String × Int)
deriving DecidableEq

/-- The effective configuration, flattened to the leaves the rule set reads
(DEFAULTS structure, src lines 25-63): `rules.title.max_main` becomes
`title_max_main`, `weights["title/required"]` becomes `w_title_required`,
and so on.  `buckets` keeps its dict insertion order. -/
structure Config where
  threshold : Int
  title_max_main : Int
  content_max_chars : Int
  content_min_chars : Int
  content_exercise_max_chars : Int
  content_max_lines : Int
  content_max_bullets : Int
  code_max_simple : Int
  code_max_complex : Int
  color_min_contrast_warn : ℚ
  color_min_contrast_error : ℚ
  color_max_colors : Int
  w_title_required : Int
  w_title_too_long : Int
  w_content_too_long : Int
  w_content_too_short : Int
  w_bullets_too_many : Int
  w_lines_too_many : Int
  w_code_too_long : Int
  w_accessibility_alt_required : Int
  w_links_bare_urls : Int
  w_color_low_contrast : Int
  w_color_too_many : Int
  buckets : List (String × List String)
deriving DecidableEq

/-- `DEFAULTS` (src lines 25-63). -/
def defaultConfig : Config where
  threshold := 70
  title_max_main := 35
  content_max_chars := 350
  content_min_chars := 50
  content_exercise_max_chars := 450
  content_max_lines := 15
  content_max_bullets := 6
  code_max_simple := 10
  code_max_complex := 5
  color_min_contrast_warn := 9 / 2
  color_min_contrast_error := 3
  color_max_colors := 6
  w_title_required := 20
  w_title_too_long := 10
  w_content_too_long := 15
  w_content_too_short := 5
  w_bullets_too_many := 10
  w_lines_too_many := 10
  w_code_too_long := 8
  w_accessibility_alt_required := 8
  w_links_bare_urls := 3
  w_color_low_contrast := 10
  w_color_too_many := 5
  buckets := [
    ("content", ["title/*", "content/*", "bullets/*", "lines/*", "structure/*"]),
    ("code", ["code/*"]),
    ("layout", ["meta/*", "structure/*"]),
    ("a11y", ["accessibility/*", "links/*"]),
    ("color", ["color/*"])]

/-- Dict lookup on an association list (first binding wins, as in a Python
dict, whose keys are unique). -/
def assocLookup {α : Type} : List (String × α) → String → Option α
  | [], _ => none
  | p :: rest, k => if p.1 = k then some p.2 else assocLookup rest k

/-- Dict assignment `m[k] = v` on an association list: update in place if
the key exists (preserving insertion order), else append. -/
def assocSet {α : Type} (m : List (String × α)) (k : String) (v : α) :
    List (String × α) :=
  if k ∈ m.map (fun p => p.1) then
    m.map (fun p => if p.1 = k then (k, v) else p)
  else m ++ [(k, v)]

/-- deep_merge (src lines 69-76) restricted to one dict level whose values
are replaced wholesale: every key of `patch` is assigned into `m`. -/
def dictMerge {α : Type} (m patch : List (String × α)) : List (String × α) :=
  patch.foldl (fun acc p => assocSet acc p.1 p.2) m

/-- Scalar merge: the patch value wins when present. -/
def oMerge {α : Type} (a b : Option α) : Option α :=
  match b with
  | some v => some v
  | none => a

/-- deep_merge of one flattened patch over another (`b` wins leaf-wise). -/
def mergePatch (a b : ConfigPatch) : ConfigPatch where
  title_max_main := oMerge a.title_max_main b.title_max_main
  content_max_chars := oMerge a.content_max_chars b.content_max_chars
  content_min_chars := oMerge a.content_min_chars b.content_min_chars
  content_exercise_max_chars :=
    oMerge a.content_exercise_max_chars b.content_exercise_max_chars
  content_max_lines := oMerge a.content_max_lines b.content_max_lines
  content_max_bullets := oMerge a.content_max_bullets b.content_max_bullets
  code_max_simple := oMerge a.code_max_simple b.code_max_simple
  code_max_complex := oMerge a.code_max_complex b.code_max_complex
  color_min_contrast_warn :=
    oMerge a.color_min_contrast_warn b.color_min_contrast_warn
  color_min_contrast_error :=
    oMerge a.color_min_contrast_error b.color_min_contrast_error
  color_max_colors := oMerge a.color_max_colors b.color_max_colors
  weights := dictMerge a.weights b.weights
  buckets := dictMerge a.buckets b.buckets

/-- Merge one `weights` entry of a patch into the flattened configuration.
A key that names no registered rule weight would land in the Python dict but
is never read; dropping it is observationally equivalent. -/
def applyWeightEntry (c : Config) (e : String × Int) : Config :=
  if e.1 = "title/required" then { c with w_title_required := e.2 }
  else if e.1 = "title/too_long" then { c with w_title_too_long := e.2 }
  else if e.1 = "content/too_long" then { c with w_content_too_long := e.2 }
  else if e.1 = "content/too_short" then { c with w_content_too_short := e.2 }
  else if e.1 = "bullets/too_many" then { c with w_bullets_too_many := e.2 }
  else if e.1 = "lines/too_many" then { c with w_lines_too_many := e.2 }
  else if e.1 = "code/too_long" then { c with w_code_too_long := e.2 }
  else if e.1 = "accessibility/alt_required" then
    { c with w_accessibility_alt_required := e.2 }
  else if e.1 = "links/bare_urls" then { c with w_links_bare_urls := e.2 }
  else if e.1 = "color/low_contrast" then { c with w_color_low_contrast := e.2 }
  else if e.1 = "color/too_many" then { c with w_color_too_many := e.2 }
  else c

/-- deep_merge of a per-slide patch over the configuration (src lines
689-691: the config is cloned via canonical JSON, then the slide patch is
deep-merged over it). -/
def applyPatch (cfg : Config) (p : ConfigPatch) : Config :=
  let c :=
    { cfg with
      title_max_main := p.title_max_main.getD cfg.title_max_main
      content_max_chars := p.content_max_chars.getD cfg.content_max_chars
      content_min_chars := p.content_min_chars.getD cfg.content_min_chars
      content_exercise_max_chars :=
        p.content_exercise_max_chars.getD cfg.content_exercise_max_chars
      content_max_lines := p.content_max_lines.getD cfg.content_max_lines
      content_max_bullets := p.content_max_bullets.getD cfg.content_max_bullets
      code_max_simple := p.code_max_simple.getD cfg.code_max_simple
      code_max_complex := p.code_max_complex.getD cfg.code_max_complex
      color_min_contrast_warn :=
        p.color_min_contrast_warn.getD cfg.color_min_contrast_warn
      color_min_contrast_error :=
        p.color_min_contrast_error.getD cfg.color_min_contrast_error
      color_max_colors := p.color_max_colors.getD cfg.color_max_colors
      buckets := dictMerge cfg.buckets p.buckets }
  p.weights.foldl applyWeightEntry c

/-- `TitleRequired.check` (src lines 465-476). -/
def titleRequired_check (slide : Slide) (cfg : Config) : List Finding :=
  if slide.metrics.title_length = 0 &&
      !(slide.overrides.disabled.contains "title/required") then
    [⟨"title/required", "error",
      "Slide missing title - add # Title or ## Title", cfg.w_title_required⟩]
  else []

/-- `TitleTooLong.check` (src lines 478-492). -/
def titleTooLong_check (slide : Slide) (cfg : Config) : List Finding :=
  let v := slide.metrics.title_length
  let m := cfg.title_max_main
  if v > m && !(slide.overrides.disabled.contains "title/too_long") then
    [⟨"title/too_long", "warning",
      "Title length " ++ toString v ++ " > max " ++ toString m ++
        " (shorten by " ++ toString (v - m) ++ " chars)", cfg.w_title_too_long⟩]
  else []

/-- `ContentTooLong.check` (src lines 494-511). -/
def contentTooLong_check (slide : Slide) (cfg : Config) : List Finding :=
  let limit :=
    if slide.metrics.is_exercise then cfg.content_exercise_max_chars
    else cfg.content_max_chars
  let v := slide.metrics.content_chars_adjusted
  if v > limit && !(slide.overrides.disabled.contains "content/too_long") then
    [⟨"content/too_long", "warning",
      "Adjusted content " ++ toString v ++ " > max " ++ toString limit ++
        " (reduce by ~" ++ toString (v - limit) ++ " chars or split into 2 slides)",
      cfg.w_content_too_long⟩]
  else []

/-- `ContentTooShort.check` (src lines 513-529). -/
def contentTooShort_check (slide : Slide) (cfg : Config) : List Finding :=
  let v := slide.metrics.content_chars
  let m := cfg.content_min_chars
  if v > 0 && v < m && !(slide.overrides.disabled.contains "content/too_short") then
    [⟨"content/too_short", "info",
      "Content " ++ toString v ++ " < min " ++ toString m ++
        " (add ~" ++ toString (m - v) ++ " chars)", cfg.w_content_too_short⟩]
  else []

/-- `BulletsTooMany.check` (src lines 531-547). -/
def bulletsTooMany_check (slide : Slide) (cfg : Config) : List Finding :=
  let v := slide.metrics.bullets
  let m := cfg.content_max_bullets
  if v > m && !(slide.overrides.disabled.contains "bullets/too_many") then
    [⟨"bullets/too_many", "warning",
      toString v ++ " bullets > max " ++ toString m ++
        " (remove " ++ toString (v - m) ++ " or split slide)",
      cfg.w_bullets_too_many⟩]
  else []

/-- `LinesTooMany.check` (src lines 549-565). -/
def linesTooMany_check (slide : Slide) (cfg : Config) : List Finding :=
  let v := slide.metrics.lines
  let m := cfg.content_max_lines
  if v > m && !(slide.overrides.disabled.contains "lines/too_many") then
    [⟨"lines/too_many", "warning",
      toString v ++ " lines > max " ++ toString m ++
        " (condense or split into 2 slides)", cfg.w_lines_too_many⟩]
  else []

/-- The error message of `ColorLowContrast.check` (src line 588). -/
def contrastErrMsg (mc et : ℚ) : String :=
  "Contrast " ++ q2str mc ++ " below minimum " ++ q2str et ++
    " (use darker/lighter colors)"

/-- The warning message of `ColorLowContrast.check` (src line 592). -/
def contrastWarnMsg (mc wt : ℚ) : String :=
  "Contrast " ++ q2str mc ++ " below recommended " ++ q2str wt ++
    " (increase for better readability)"

/-- `ColorLowContrast.check` (src lines 571-594).  The warning deduction is
Python floor division `// 2`, i.e. `Int.fdiv`. -/
def colorLowContrast_check (slide : Slide) (cfg : Config) : List Finding :=
  match slide.metrics.min_contrast with
  | none => []
  | some mc =>
    if slide.overrides.disabled.contains "color/low_contrast" then []
    else if mc < cfg.color_min_contrast_error then
      [⟨"color/low_contrast", "error",
        contrastErrMsg mc cfg.color_min_contrast_error, cfg.w_color_low_contrast⟩]
    else if mc < cfg.color_min_contrast_warn then
      [⟨"color/low_contrast", "warning",
        contrastWarnMsg mc cfg.color_min_contrast_warn,
        Int.fdiv cfg.w_color_low_contrast 2⟩]
    else []

/-- `ColorTooMany.check` (src lines 596-612). -/
def colorTooMany_check (slide : Slide) (cfg : Config) : List Finding :=
  let v := slide.metrics.unique_colors
  let m := cfg.color_max_colors
  if v > m && !(slide.overrides.disabled.contains "color/too_many") then
    [⟨"color/too_many", "warning",
      toString v ++ " unique colors > max " ++ toString m ++
        " (reduce by " ++ toString (v - m) ++ ")", cfg.w_color_too_many⟩]
  else []

/-- `AltRequired.check` (src lines 618-635): images whose alt text strips to
empty are missing alt text. -/
def altRequired_check (slide : Slide) (cfg : Config) : List Finding :=
  let missing := slide.metrics.images.filter (fun p => (stripL p.1.toList).isEmpty)
  if !missing.isEmpty &&
      !(slide.overrides.disabled.contains "accessibility/alt_required") then
    [⟨"accessibility/alt_required", "error",
      toString missing.length ++
        " images missing alt text (add descriptions in ![alt text](url))",
      cfg.w_accessibility_alt_required⟩]
  else []

/-- `BareUrls.check` (src lines 637-651). -/
def bareUrls_check (slide : Slide) (cfg : Config) : List Finding :=
  let v := slide.metrics.bare_urls
  if v > 0 && !(slide.overrides.disabled.contains "links/bare_urls") then
    [⟨"links/bare_urls", "info",
      toString v ++ " bare URLs (use [link text](url) format)",
      cfg.w_links_bare_urls⟩]
  else []

/-- The complex-language set of `CodeTooLong.check` (src line 670). -/
def complexLangs : List String := ["python", "javascript", "java", "cpp"]

/-- `CodeTooLong.check` (src lines 657-679): offending blocks are joined
into a single finding. -/
def codeTooLong_check (slide : Slide) (cfg : Config) : List Finding :=
  let issues := slide.metrics.code_blocks.foldr (fun cb acc =>
    let maxAllowed :=
      if complexLangs.contains cb.2 then cfg.code_max_complex
      else cfg.code_max_simple
    if cb.1 > maxAllowed then
      (cb.2 ++ " code " ++ toString cb.1 ++ " lines > max " ++
        toString maxAllowed ++ " (trim " ++ toString (cb.1 - maxAllowed) ++
        " lines or split)") :: acc
    else acc) []
  if !issues.isEmpty && !(slide.overrides.disabled.contains "code/too_long") then
    [⟨"code/too_long", "warning", String.intercalate "; " issues,
      cfg.w_code_too_long⟩]
  else []

/-- The rule registry `REGISTRY` (src lines 447-459), in registration order:
each entry is the rule id paired with its check function. -/
def REGISTRY : List (String × (Slide → Config → List Finding)) :=
  [("title/required", titleRequired_check),
   ("title/too_long", titleTooLong_check),
   ("content/too_long", contentTooLong_check),
   ("content/too_short", contentTooShort_check),
   ("bullets/too_many", bulletsTooMany_check),
   ("lines/too_many", linesTooMany_check),
   ("color/low_contrast", colorLowContrast_check),
   ("color/too_many", colorTooMany_check),
   ("accessibility/alt_required", altRequired_check),
   ("links/bare_urls", bareUrls_check),
   ("code/too_long", codeTooLong_check)]

/-- Python string `<`: code-point lexicographic order on the character
lists. -/
def lexLt : List Char → List Char → Bool
  | [], [] => false
  | [], _ :: _ => true
  | _ :: _, [] => false
  | a :: as, b :: bs =>
    if a.toNat < b.toNat then true
    else if b.toNat < a.toNat then false
    else lexLt as bs

/-- Python string `<` on Strings. -/
def strLt (a b : String) : Bool := lexLt a.toList b.toList

/-- Python string `<=` on Strings. -/
def strLe (a b : String) : Bool := strLt a b || a == b

/-- The deterministic sort key order on findings: lexicographic on
(rule, message) (src line 702), Python tuple comparison of code-point
ordered strings. -/
def keyLe (f g : Finding) : Prop :=
  strLt f.rule g.rule = true ∨ (f.rule = g.rule ∧ strLe f.message g.message = true)

instance keyLeDec : DecidableRel keyLe := fun f g => by
  unfold keyLe
  infer_instance

/-- Python `sorted(key=lambda f: (f.rule, f.message))` is a stable sort;
insertion sort with the total preorder `keyLe` is stable as well, so the two
produce identical output. -/
def sortFindings (l : List Finding) : List Finding := List.insertionSort keyLe l

/-- The overall score of a finding set: `max(0, min(100, 100 - Σ max(0,
deduction)))` (src lines 704-706 and 759-761). -/
def scoreVal (diags : List Finding) : Int :=
  max 0 (min 100 (100 - (diags.map (fun f => max 0 f.deduction)).sum))

/-- Glob match of a bucket pattern against a rule id (src lines 714-718):
a pattern ending in `*` matches by prefix (`pattern[:-1]`), any other
pattern exactly.  endswith/startswith are computed on the character
lists. -/
def patMatch (pattern rule : String) : Bool :=
  if pattern.toList.getLast? == some '*' then
    pattern.toList.dropLast.isPrefixOf rule.toList
  else rule == pattern

/-- The deduction a bucket accumulates over a finding set (src lines
711-720): each finding contributes `max(0, deduction)` once if some pattern
matches it — the inner loop breaks at the first matching pattern. -/
def bucketDeduction (patterns : List String) (diags : List Finding) : Int :=
  diags.foldl (fun acc f =>
    match patterns.find? (fun p => patMatch p f.rule) with
    | some _ => acc + max 0 f.deduction
    | none => acc) 0

/-- A bucket's score: `max(0, 100 - deduction)` (src lines 721 and 775). -/
def bucketScoreVal (patterns : List String) (diags : List Finding) : Int :=
  max 0 (100 - bucketDeduction patterns diags)

/-- `run_rules_on_slide` (src lines 685-723): deep-merge the slide's local
patch over the configuration, run every non-disabled registered rule, sort
the findings, and compute the score and the per-bucket scores. -/
def run_rules_on_slide (slide : Slide) (cfg : Config) :
    List Finding × Int × List (String × Int) :=
  let effective := applyPatch cfg slide.overrides.rules
  let diags0 := REGISTRY.foldl (fun acc r =>
    if slide.overrides.disabled.any (fun d => r.1 == d) then acc
    else acc ++ r.2 slide effective) []
  let diags := sortFindings diags0
  let buckets := effective.buckets.foldl (fun acc nb =>
    assocSet acc nb.1 (bucketScoreVal nb.2 diags)) []
  (diags, scoreVal diags, buckets)

/-- Deduplication keeping first occurrences, as Python dict insertion order
does for `title_counts` (src lines 727-730). -/
def firstDedup (l : List String) : List String :=
  l.foldl (fun acc t => if t ∈ acc then acc else acc ++ [t]) []

/-- The non-empty titles of the slides, in slide order. -/
def nonEmptyTitles (slides : List Slide) : List String :=
  (slides.filter (fun s => !(s.title = "" : Bool))).map (fun s => s.title)

/-- `title_counts[t]` (src lines 727-730): the indices of the slides whose
title is `t`, in slide order. -/
def titleIndices (slides : List Slide) (t : String) : List Nat :=
  (slides.filter (fun s => s.title == t)).map (fun s => s.index)

/-- The duplicate-title finding (src lines 736-740).  Its deduction is the
literal 5, not a configured weight. -/
def dupTitleFinding (t : String) (n : Nat) : Finding :=
  ⟨"structure/duplicate_titles", "warning",
   "Duplicate title \x27" ++ t ++ "\x27 found on " ++ toString n ++ " slides", 5⟩

/-- `check_duplicate_titles(slides).get(idx, [])` (src lines 725-742): for
every title (first-occurrence order) held by more than one slide index, one
finding per occurrence of `idx` among that title's indices. -/
def check_duplicate_titles (slides : List Slide) (idx : Nat) : List Finding :=
  (firstDedup (nonEmptyTitles slides)).foldr (fun t acc =>
    (let indices := titleIndices slides t
     if 1 < indices.length then
       (indices.filter (fun i => i == idx)).map
         (fun _ => dupTitleFinding t indices.length)
     else []) ++ acc) []

/-- `evaluate_all` (src lines 744-789): per-slide rule run, then for slides
with duplicate-title findings a re-sort of the finding set, a recomputation
of the score, and a recomputation of the buckets declared in `cfg` (the
recompute loop iterates `cfg["buckets"]`, src line 764, writing into the
bucket dict produced by `run_rules_on_slide`).  `evalOne` is the loop
body of `evaluate_all` for one slide. -/
def evalOne (slides : List Slide) (cfg : Config) (slide : Slide) : SlideResult :=
  let rr := run_rules_on_slide slide cfg
  let dups := check_duplicate_titles slides slide.index
  if dups.isEmpty then
    ⟨slide.index, slide.uuid, slide.title, slide.body, slide.metrics,
     rr.1, rr.2.1, rr.2.2⟩
  else
    let diags2 := sortFindings (rr.1 ++ dups)
    let buckets2 := cfg.buckets.foldl (fun acc nb =>
      assocSet acc nb.1 (bucketScoreVal nb.2 diags2)) rr.2.2
    ⟨slide.index, slide.uuid, slide.title, slide.body, slide.metrics,
     diags2, scoreVal diags2, buckets2⟩

/-- `evaluate_all` (src lines 744-789): the loop body applied to every
slide, in order. -/
def evaluate_all (slides : List Slide) (cfg : Config) : List SlideResult :=
  slides.map (evalOne slides cfg)

/-- A cache entry: the persisted (diagnostics, score, bucket_scores) triple
(src lines 978-982). -/
structure CacheEntry where
  diagnostics : List Finding
  score : Int
  bucket_scores : List (String × Int)
deriving DecidableEq

/-- `get_cached_results` (src lines 810-828) viewed as the dict it builds:
for a uuid, the last slide with that uuid determines the entry (dict writes
overwrite), and the value is a SlideResult rebuilt from that slide plus the
cached triple, or none on a cache miss. -/
def get_cached_results (slides : List Slide) (cache : List (String × CacheEntry))
    (u : String) : Option SlideResult :=
  match (slides.filter (fun s => s.uuid == u)).getLast? with
  | some s =>
    (assocLookup cache u).map (fun e =>
      ⟨s.index, s.uuid, s.title, s.body, s.metrics,
       e.diagnostics, e.score, e.bucket_scores⟩)
  | none => none

/-- The analyze pipeline of `handle_analyze` after parsing (src lines
963-993): look up every slide in the cache, evaluate only the cache-miss
slides with `evaluate_all`, and combine results in original slide order.
`new_results_map` is a dict keyed by uuid, so the last result with a given
uuid wins. -/
def analyze_results (slides : List Slide) (cache : List (String × CacheEntry))
    (cfg : Config) : List SlideResult :=
  let cachedMap := get_cached_results slides cache
  let uncached := slides.filter (fun s => (cachedMap s.uuid).isNone)
  let newResults := evaluate_all uncached cfg
  slides.filterMap (fun s =>
    match (newResults.filter (fun r => r.uuid == s.uuid)).getLast? with
    | some r => some r
    | none => cachedMap s.uuid)

/-- The cache update of `handle_analyze` (src lines 973-985): every
cache-miss slide's computed triple is written into the cache under its
uuid. -/
def updated_cache (slides : List Slide) (cache : List (String × CacheEntry))
    (cfg : Config) : List (String × CacheEntry) :=
  let cachedMap := get_cached_results slides cache
  let uncached := slides.filter (fun s => (cachedMap s.uuid).isNone)
  let newResults := evaluate_all uncached cfg
  uncached.foldl (fun c s =>
    match (newResults.filter (fun r => r.uuid == s.uuid)).getLast? with
    | some r => assocSet c s.uuid ⟨r.diagnostics, r.score, r.bucket_scores⟩
    | none => c) cache

/-- Python str.rstrip("-->"): strip trailing characters drawn from the set
of `-` and `>` (src line 202). -/
def rstripDashGt (cs : List Char) : List Char :=
  (cs.reverse.dropWhile (fun c => c = '-' || c = '>')).reverse

/-- The directive payload: the text after the first occurrence of
`slidegauge:` (src line 202, `s[s.find("slidegauge:")+11:]`; the `none`
branch mirrors find returning -1, unreachable under the containment
guard). -/
def directivePayload (s : List Char) : List Char :=
  match findSubIdx s "slidegauge:".toList with
  | some i => s.drop (i + 11)
  | none => s.drop 10

/-- Python `content.split(None, 1)`: split on whitespace runs with at most
one split; leading whitespace ignored, the remainder kept verbatim. -/
def splitNone1 (s : List Char) : List (List Char) :=
  let s1 := s.dropWhile isPySpace
  let w := s1.takeWhile (fun c => !(isPySpace c))
  let rest := (s1.dropWhile (fun c => !(isPySpace c))).dropWhile isPySpace
  if w.isEmpty then [] else if rest.isEmpty then [w] else [w, rest]

/-- Python sorted(...) on strings (code-point lexicographic order). -/
def sortStrings (l : List String) : List String :=
  List.insertionSort (fun a b : String => strLe a b = true) l

/-- One line of `parse_inline_overrides` (src lines 199-211).  JSON parsing
of payloads is the stdlib `json.loads`; it is passed in as `jsonParse`
(returning `none` where `json.loads` raises, i.e. on malformed JSON).  The
`disable` branch unpacks `content.split(None, 1)` into exactly two names;
with no rule argument the unpacking raises ValueError, modelled as
`Except.error`. -/
def pioLine (jsonParse : String → Option ConfigPatch)
    (st : List String × ConfigPatch) (ln : String) :
    Except Unit (List String × ConfigPatch) :=
  let s := stripL ln.toList
  if "<!--".toList.isPrefixOf s && containsSub s "slidegauge:".toList then
    let content := stripL (rstripDashGt (directivePayload s))
    if "disable".toList.isPrefixOf content then
      match splitNone1 content with
      | [_, rid] => Except.ok (st.1 ++ [String.mk (stripL rid)], st.2)
      | _ => Except.error ()
    else
      match jsonParse (String.mk content) with
      | some p => Except.ok (st.1, mergePatch st.2 p)
      | none => Except.ok st
  else Except.ok st

/-- `parse_inline_overrides` (src lines 194-213): fold the lines, then
return `{"disabled": sorted(set(disabled)), "rules": local_cfg}`.  An
uncaught ValueError from the `disable` branch propagates (`Except.error`). -/
def parse_inline_overrides (jsonParse : String → Option ConfigPatch)
    (lines : List String) : Except Unit (List String × ConfigPatch) :=
  (lines.foldl (fun acc ln => acc.bind (fun st => pioLine jsonParse st ln))
      (Except.ok ([], emptyPatch))).map
    (fun st => (sortStrings (firstDedup st.1), st.2))

/-- Python `str.split('\n')` on a list of characters. -/
def splitLinesNl : List Char → List (List Char)
  | [] => [[]]
  | '\n' :: rest => [] :: splitLinesNl rest
  | c :: rest =>
    match splitLinesNl rest with
    | h :: t => (c :: h) :: t
    | [] => [[c]]

/-- Python `markdown.split('\n')` (src line 393). -/
def pySplitNl (s : String) : List String :=
  (splitLinesNl s.toList).map (fun l => String.mk l)

/-- `parse_slides` (src lines 391-441) up to the per-slide construction:
the document is split on newlines, slide texts come from `split_slides`,
and each (index, text) pair is turned into a Slide by the per-slide parsing
stage, abstracted here as `mk`. -/
def parse_slides_with (mk : Nat → String → Slide) (markdown : String) :
    List Slide :=
  ((split_slides (pySplitNl markdown)).enum).map (fun p => mk p.1 p.2)

/-- Modelled from the spec (§4.6): the bucket-score formula as the spec
words it — `clamp(100 − Σ deduction of findings matching that bucket's
patterns, 0, 100)`, each matching finding contributing exactly once.  Used
only for the refinement comparison in claim C7. -/
def specBucketScore (patterns : List String) (diags : List Finding) : Int :=
  min 100 (max 0 (100 -
    ((diags.filter (fun f => patterns.any (fun p => patMatch p f.rule))).map
      (fun f => f.deduction)).sum))

/-- All-zero metrics record (used only as a `getD` default). -/
def blankMetrics : Metrics :=
  ⟨0, 0, 0, 0, 0, [], false, false, false, [], [], none, 0, 0⟩

/-- Default Slide (used only as a `getD` default). -/
def dfltSlide : Slide := ⟨0, "", "", "", blankMetrics, ⟨[], emptyPatch⟩⟩

/-- Default SlideResult (used only as a `getD` default). -/
def dfltResult : SlideResult := ⟨0, "", "", "", blankMetrics, [], 0, []⟩

/-- The metrics `scan_slide` produces for a slide body of the form
`"# Same\nContent N"`: title `Same` (length 4) on line 0, one 9-character
content line, 2 lines, nothing else. -/
def metricsSame : Metrics :=
  ⟨4, 9, 9, 0, 2, [], false, false, false, [], [], none, 0, 0⟩

/-- Concrete slide 0 of the duplicate-title documents. -/
def slideSame1 : Slide :=
  ⟨0, "uuid:same-1", "Same", "# Same\nContent 1", metricsSame, ⟨[], emptyPatch⟩⟩

/-- Concrete slide 1 of the duplicate-title documents. -/
def slideSame2 : Slide :=
  ⟨1, "uuid:same-2", "Same", "# Same\nContent 2", metricsSame, ⟨[], emptyPatch⟩⟩

/-- Concrete slide 2 of the duplicate-title documents. -/
def slideSame3 : Slide :=
  ⟨2, "uuid:same-3", "Same", "# Same\nContent 3", metricsSame, ⟨[], emptyPatch⟩⟩

/-- An inline-directive patch adding a bucket named `extra` whose pattern
list matches the duplicate-title rule (reachable from a document via
a `<!-- slidegauge: ... -->` JSON directive). -/
def patchExtra : ConfigPatch :=
  ⟨none, none, none, none, none, none, none, none, none, none, none, [],
   [("extra", ["structure/*"])]⟩

/-- Slide 0 with the `extra`-bucket patch and a duplicated title. -/
def slidePatched : Slide :=
  ⟨0, "uuid:patched", "Same", "# Same\nContent 1", metricsSame, ⟨[], patchExtra⟩⟩

/-- A slide whose only color is RGB (170,170,170) (`#aaaaaa` against the
fixed white background), as in self-test 2 (src line 1117): the scanner
records one color triple and its contrast ratio 63/43 as the minimum. -/
def slideGray : Slide :=
  ⟨0, "uuid:gray", "Slide",
   "# Slide\n<span style=\x22color: #aaaaaa\x22>Light text</span>",
   ⟨5, 46, 46, 0, 2, [], false, false, false, [],
    [("#aaaaaa", (170, 170, 170), 63 / 43)], some (63 / 43), 1, 0⟩,
   ⟨[], emptyPatch⟩⟩

/-- A hypothetical slide whose minimum contrast is exactly the default
error threshold 3.0, for the strictness boundary check. -/
def slideGrayAt3 : Slide :=
  ⟨0, "uuid:gray3", "Slide", "# Slide",
   ⟨5, 0, 0, 0, 1, [], false, false, false, [],
    [("#border", (0, 0, 0), 3)], some 3, 1, 0⟩,
   ⟨[], emptyPatch⟩⟩

/-- A slide whose minimum contrast is 2, below the default error
threshold. -/
def slideContrast2 : Slide :=
  ⟨0, "uuid:c2", "Slide", "# Slide",
   ⟨5, 0, 0, 0, 1, [], false, false, false, [],
    [("#c", (0, 0, 0), 2)], some 2, 1, 0⟩,
   ⟨[], emptyPatch⟩⟩

theorem lexLt_trans :
    ∀ a b c : List Char, lexLt a b = true → lexLt b c = true → lexLt a c = true := by
  intro a
  induction a with
  | nil =>
    intro b c hab hbc
    cases b with
    | nil => simp [lexLt] at hab
    | cons bh bt =>
      cases c with
      | nil => simp [lexLt] at hbc
      | cons ch ct => rfl
  | cons ah t1 ih =>
    intro b c hab hbc
    cases b with
    | nil => simp [lexLt] at hab
    | cons bh bt =>
      cases c with
      | nil => simp [lexLt] at hbc
      | cons ch ct =>
        simp only [lexLt] at hab hbc ⊢
        by_cases h1 : ah.toNat < bh.toNat
        · by_cases h2 : bh.toNat < ch.toNat
          · have h3 : ah.toNat < ch.toNat := lt_trans h1 h2
            simp [h3]
          · by_cases h3 : ch.toNat < bh.toNat
            · simp [h2, h3] at hbc
            · have hbceq : bh.toNat = ch.toNat :=
                le_antisymm (not_lt.mp h3) (not_lt.mp h2)
              have h4 : ah.toNat < ch.toNat := hbceq ▸ h1
              simp [h4]
        · by_cases h1b : bh.toNat < ah.toNat
          · simp [h1, h1b] at hab
          · have habeq : ah.toNat = bh.toNat :=
              le_antisymm (not_lt.mp h1b) (not_lt.mp h1)
            rw [if_neg h1, if_neg h1b] at hab
            by_cases h2 : bh.toNat < ch.toNat
            · have h4 : ah.toNat < ch.toNat := habeq ▸ h2
              simp [h4]
            · by_cases h3 : ch.toNat < bh.toNat
              · simp [h2, h3] at hbc
              · have hbceq : bh.toNat = ch.toNat :=
                  le_antisymm (not_lt.mp h3) (not_lt.mp h2)
                rw [if_neg h2, if_neg h3] at hbc
                have h4 : ¬ ah.toNat < ch.toNat := by omega
                have h5 : ¬ ch.toNat < ah.toNat := by omega
                rw [if_neg h4, if_neg h5]
                exact ih bt ct hab hbc

theorem lexLt_trichotomy :
    ∀ a b : List Char, lexLt a b = true ∨ a = b ∨ lexLt b a = true := by
  intro a
  induction a with
  | nil =>
    intro b
    cases b with
    | nil => exact Or.inr (Or.inl rfl)
    | cons bh bt => exact Or.inl rfl
  | cons ah t1 ih =>
    intro b
    cases b with
    | nil => exact Or.inr (Or.inr rfl)
    | cons bh bt =>
      by_cases h1 : ah.toNat < bh.toNat
      · exact Or.inl (by simp [lexLt, h1])
      · by_cases h2 : bh.toNat < ah.toNat
        · exact Or.inr (Or.inr (by simp [lexLt, h2]))
        · have heq : ah = bh :=
            Char.ext (UInt32.ext (le_antisymm (not_lt.mp h2) (not_lt.mp h1)))
          rcases ih bt with h | h | h
          · exact Or.inl (by simp [lexLt, h1, h2, h])
          · exact Or.inr (Or.inl (by rw [heq, h]))
          · refine Or.inr (Or.inr ?_)
            subst heq
            simp [lexLt, h1, h2, h]

theorem strLt_trans {a b c : String} (h1 : strLt a b = true)
    (h2 : strLt b c = true) : strLt a c = true :=
  lexLt_trans a.toList b.toList c.toList h1 h2

theorem strLe_trans {a b c : String} (h1 : strLe a b = true)
    (h2 : strLe b c = true) : strLe a c = true := by
  unfold strLe at h1 h2 ⊢
  rcases (Bool.or_eq_true _ _).mp h1 with h1 | h1
  · rcases (Bool.or_eq_true _ _).mp h2 with h2 | h2
    · exact (Bool.or_eq_true _ _).mpr (Or.inl (strLt_trans h1 h2))
    · have hbc : b = c := eq_of_beq h2
      exact (Bool.or_eq_true _ _).mpr (Or.inl (hbc ▸ h1))
  · have hab : a = b := eq_of_beq h1
    rw [hab]
    exact h2

instance : IsTotal Finding keyLe where
  total f g := by
    rcases lexLt_trichotomy f.rule.toList g.rule.toList with h | h | h
    · exact Or.inl (Or.inl h)
    · have heq : f.rule = g.rule := String.ext h
      rcases lexLt_trichotomy f.message.toList g.message.toList with hm | hm | hm
      · exact Or.inl (Or.inr ⟨heq, by
          unfold strLe
          exact (Bool.or_eq_true _ _).mpr (Or.inl hm)⟩)
      · exact Or.inl (Or.inr ⟨heq, by
          unfold strLe
          refine (Bool.or_eq_true _ _).mpr (Or.inr ?_)
          exact beq_iff_eq.mpr (String.ext hm)⟩)
      · exact Or.inr (Or.inr ⟨heq.symm, by
          unfold strLe
          exact (Bool.or_eq_true _ _).mpr (Or.inl hm)⟩)
    · exact Or.inr (Or.inl h)

instance : IsTrans Finding keyLe where
  trans f g h hfg hgh := by
    rcases hfg with hfg | ⟨hfg, hm⟩
    · rcases hgh with hgh | ⟨hgh, _⟩
      · exact Or.inl (strLt_trans hfg hgh)
      · exact Or.inl (hgh ▸ hfg)
    · rcases hgh with hgh | ⟨hgh, hm2⟩
      · exact Or.inl (by rw [hfg]; exact hgh)
      · exact Or.inr ⟨hfg.trans hgh, strLe_trans hm hm2⟩

theorem sortFindings_sorted (l : List Finding) :
    List.Sorted keyLe (sortFindings l) :=
  List.sorted_insertionSort keyLe l

theorem sortFindings_perm (l : List Finding) :
    (sortFindings l).Perm l :=
  List.perm_insertionSort keyLe l

theorem mem_sortFindings {f : Finding} {l : List Finding} :
    f ∈ sortFindings l ↔ f ∈ l :=
  (sortFindings_perm l).mem_iff

/-- rstrip only removes a suffix: its result is a prefix of its input. -/
theorem rstripL_prefix (x : List Char) : rstripL x <+: x := by
  have h : x.reverse.dropWhile isPySpace <:+ x.reverse :=
    List.dropWhile_suffix isPySpace
  have h2 := List.reverse_prefix.mpr h
  rwa [List.reverse_reverse] at h2

/-- A line that strips to `---` lstrips to `---` plus trailing blanks. -/
theorem lstrip_of_strip_sep {ln : List Char} (h : stripL ln = sepMarker) :
    ∃ t, lstripL ln = sepMarker ++ t := by
  have hp : sepMarker <+: lstripL ln := h ▸ rstripL_prefix (lstripL ln)
  obtain ⟨t, ht⟩ := hp
  exact ⟨t, ht.symm⟩

/-- A separator line can never close a code fence. -/
theorem sep_not_fence_close {ln f : List Char}
    (hf : f = btFence ∨ f = tildeFence) (h : stripL ln = sepMarker) :
    f.isPrefixOf (lstripL ln) = false := by
  obtain ⟨t, ht⟩ := lstrip_of_strip_sep h
  rcases hf with rfl | rfl <;>
    simp [ht, sepMarker, btFence, tildeFence, List.isPrefixOf]

/-- Claim C1: a line whose trimmed form equals `---` occurring between a
fence-opening line and the matching fence-closing line is appended verbatim
to the current slide buffer and never ends a slide (it cannot close the
fence, so the CODE state consumes it); in particular the document
`# A\n(fence)\ncode with ---\n(fence)\n---\n# B` splits into exactly 2
slides whose first slide body contains the literal `---`. -/
theorem c1_sep_inside_fence_kept :
    (∀ (ln : List Char) (rest buf : List (List Char)) (f : List Char),
      (f = btFence ∨ f = tildeFence) → stripL ln = sepMarker →
      splitCore (ln :: rest) buf (some f) =
        splitCore rest (buf ++ [ln]) (some f)) ∧
    split_slides ["# A", "```", "code with ---", "```", "---", "# B"] =
      ["# A\n```\ncode with ---\n```", "# B"] ∧
    containsSub ("# A\n```\ncode with ---\n```").toList sepMarker = true := by
  refine ⟨?_, by decide, by decide⟩
  intro ln rest buf f hf hsep
  have hnot := sep_not_fence_close hf hsep
  simp [splitCore, hnot]

/-- Witness for C1: the general CODE-state step applied to the separator
line itself inside a backtick fence. -/
theorem c1_witness :
    splitCore ["---".toList] [] (some btFence) =
      splitCore [] ([] ++ ["---".toList]) (some btFence) :=
  c1_sep_inside_fence_kept.1 "---".toList [] [] btFence (Or.inl rfl) (by decide)

/-- Claim C10: a document whose first line trims to `---` with no later
line trimming to `---` is treated as one unterminated leading frontmatter
block and discarded entirely: the splitter returns no slides, parsing
yields no slides, and the analyze pipeline returns an empty result list
(zero slides) rather than an error. -/
theorem c10_unterminated_frontmatter (l : String) (ls : List String)
    (h1 : stripL l.toList = sepMarker)
    (h2 : ∀ x ∈ ls, ¬ stripL x.toList = sepMarker) :
    split_slides (l :: ls) = [] ∧
    ∀ (mk : Nat → String → Slide) (md : String)
      (cache : List (String × CacheEntry)) (cfg : Config),
      pySplitNl md = l :: ls →
      parse_slides_with mk md = [] ∧
      analyze_results (parse_slides_with mk md) cache cfg = [] := by
  have hsplit : split_slides (l :: ls) = [] := by
    have hdrop :
        (ls.map (fun s => s.data)).dropWhile
          (fun x => !(stripL x = sepMarker : Bool)) = [] := by
      rw [List.dropWhile_eq_nil_iff]
      intro x hx
      obtain ⟨y, hy, rfl⟩ := List.mem_map.mp hx
      have := h2 y hy
      simp only [String.toList] at this
      simp [this]
    have h1d : stripL l.data = sepMarker := by
      have := h1
      simpa [String.toList] using this
    simp [split_slides, dropFrontmatter, h1d, hdrop, splitCore]
  refine ⟨hsplit, ?_⟩
  intro mk md cache cfg hmd
  have hp : parse_slides_with mk md = [] := by
    simp [parse_slides_with, hmd, hsplit]
  exact ⟨hp, by simp [hp, analyze_results, evaluate_all]⟩

/-- Witness for C10 at the two-line document `---`, `title: x`. -/
theorem c10_witness :
    split_slides ["---", "title: x"] = [] ∧
    parse_slides_with (fun _ _ => dfltSlide) "---\ntitle: x" = [] ∧
    analyze_results (parse_slides_with (fun _ _ => dfltSlide) "---\ntitle: x")
      [] defaultConfig = [] := by
  have h := c10_unterminated_frontmatter "---" ["title: x"] (by decide) (by decide)
  have h2 := h.2 (fun _ _ => dfltSlide) "---\ntitle: x" [] defaultConfig (by decide)
  exact ⟨h.1, h2.1, h2.2⟩

/-- Counterexample for C6: the contrast ratio the code computes for RGB
(170,170,170) against white is exactly 63/43 ≈ 1.465, which is not the
WCAG-standard value ≈ 2.32 (it differs from 2.32 by more than 4/5). -/
theorem c6_counterexample :
    contrast_ratio (170, 170, 170) (255, 255, 255) = 63 / 43 ∧
    4 / 5 < |contrast_ratio (170, 170, 170) (255, 255, 255) - 232 / 100| := by
  have h : contrast_ratio (170, 170, 170) (255, 255, 255) = 63 / 43 := by
    simp only [contrast_ratio, rel_lum]
    norm_num
  refine ⟨h, ?_⟩
  rw [h]
  rw [abs_of_nonpos (by norm_num)]
  norm_num

/-- Amended C6: with the source's linear (non-gamma-corrected) luminance
formula, the contrast for RGB (170,170,170) on white equals 63/43 ≈ 1.465
(not the gamma-corrected WCAG ≈ 2.32); that value is strictly below the
default 3.0 error threshold, so a slide with it as its only color takes the
error branch with the full deduction, and the comparison is strict: a
minimum contrast of exactly 3.0 does not trigger the error branch but
falls through to the 4.5 warning band at half the deduction. -/
theorem c6_contrast_value :
    contrast_ratio (170, 170, 170) (255, 255, 255) = 63 / 43 ∧
    (63 / 43 : ℚ) < 3 ∧
    colorLowContrast_check slideGray defaultConfig =
      [⟨"color/low_contrast", "error", contrastErrMsg (63 / 43) 3, 10⟩] ∧
    colorLowContrast_check slideGrayAt3 defaultConfig =
      [⟨"color/low_contrast", "warning", contrastWarnMsg 3 (9 / 2),
        Int.fdiv 10 2⟩] := by
  refine ⟨?_, by norm_num, ?_, ?_⟩
  · simp only [contrast_ratio, rel_lum]
    norm_num
  · simp only [colorLowContrast_check, slideGray, defaultConfig]
    norm_num
  · simp only [colorLowContrast_check, slideGrayAt3, defaultConfig]
    norm_num

/-- Counterexample for C9: a line containing a Markdown-wrapped link AND a
separate unwrapped URL does not increment the bare-URL count — the scanner
suppresses the whole line whenever the wrapped-link pattern matches
anywhere in it, even though the line also has a bare `http://` URL. -/
theorem c9_counterexample :
    scanLineBareUrl "[t](http://a.com) and http://b.com" = 0 ∧
    hasBareUrlToken ("[t](http://a.com) and http://b.com").toList = true ∧
    hasWrappedLink ("[t](http://a.com) and http://b.com").toList = true := by
  decide

/-- Amended C9: the bare-URL count is incremented for a line containing an
`http(s)://` match only when the line contains no Markdown-wrapped
`http(s)` link at all; any wrapped-link match suppresses the entire line,
so a line with both a wrapped link and a separate unwrapped URL is not
counted. -/
theorem c9_bare_url_line :
    (∀ line : String,
      hasWrappedLink line.toList = true → scanLineBareUrl line = 0) ∧
    scanLineBareUrl "see http://b.com for details" = 1 ∧
    scanLineBareUrl "[t](http://a.com) and http://b.com" = 0 := by
  refine ⟨?_, by decide, by decide⟩
  intro line h
  unfold scanLineBareUrl
  rw [h]
  simp

/-- Witness for C9: the suppression clause applied to a concrete line that
consists of a wrapped link. -/
theorem c9_witness : scanLineBareUrl "[x](https://y.com/)" = 0 :=
  c9_bare_url_line.1 "[x](https://y.com/)" (by decide)

/-- Counterexample for C8: a directive whose payload is `disable` with no
rule argument makes the parse raise (ValueError from tuple unpacking, src
line 204, not caught inside the OverrideParser), so directive parsing is
not total. -/
theorem c8_counterexample :
    parse_inline_overrides (fun _ => none) ["<!-- slidegauge: disable -->"] =
      Except.error () := by
  rfl

/-- Amended C8: a directive comment whose payload is malformed JSON is
silently ignored — for any behavior of the JSON parser, a directive line
whose payload does not start with `disable` and fails to parse leaves the
parser output exactly as if the line were absent; however the parse is not
total: a `disable` directive lacking a rule argument raises past the
OverrideParser (caught only at the request boundary). -/
theorem c8_malformed_json_ignored
    (jsonParse : String → Option ConfigPatch) (pre post : List String)
    (ln : String)
    (h1 : "<!--".toList.isPrefixOf (stripL ln.toList) = true)
    (h2 : containsSub (stripL ln.toList) "slidegauge:".toList = true)
    (h3 : "disable".toList.isPrefixOf
      (stripL (rstripDashGt (directivePayload (stripL ln.toList)))) = false)
    (h4 : jsonParse
      (String.mk (stripL (rstripDashGt (directivePayload (stripL ln.toList)))))
        = none) :
    parse_inline_overrides jsonParse (pre ++ ln :: post) =
      parse_inline_overrides jsonParse (pre ++ post) := by
  have hstep : ∀ st, pioLine jsonParse st ln = Except.ok st := by
    intro st
    simp only [pioLine]
    rw [if_pos (by rw [h1, h2]; rfl)]
    rw [if_neg (by rw [h3]; exact Bool.false_ne_true)]
    rw [h4]
  have hbind : ∀ (acc : Except Unit (List String × ConfigPatch)),
      acc.bind (fun st => pioLine jsonParse st ln) = acc := by
    intro acc
    cases acc with
    | error e => rfl
    | ok st => simpa using hstep st
  unfold parse_inline_overrides
  rw [List.foldl_append, List.foldl_append]
  simp only [List.foldl_cons]
  rw [hbind]

/-- Witness for C8: a concrete malformed-JSON directive line is dropped
without any effect on the parser output. -/
theorem c8_witness :
    parse_inline_overrides (fun _ => none) ["<!-- slidegauge: notjson -->"] =
      parse_inline_overrides (fun _ => none) [] :=
  c8_malformed_json_ignored (fun _ => none) [] [] "<!-- slidegauge: notjson -->"
    (by decide) (by decide) (by decide) rfl

/-- Claim C5: for a slide with a minimum contrast (at least one parsed
color) and color/low_contrast not disabled, the rule emits exactly one
error finding at the full configured deduction when the minimum contrast is
strictly below the error threshold; otherwise exactly one warning finding
at the configured deduction floor-divided by 2 when strictly below the warn
threshold; otherwise nothing.  The error boundary is strict: a minimum
contrast equal to the error threshold does not take the error branch. -/
theorem c5_low_contrast_branches (slide : Slide) (cfg : Config) (mc : ℚ)
    (hmc : slide.metrics.min_contrast = some mc)
    (hdis : slide.overrides.disabled.contains "color/low_contrast" = false) :
    (mc < cfg.color_min_contrast_error →
      colorLowContrast_check slide cfg =
        [⟨"color/low_contrast", "error",
          contrastErrMsg mc cfg.color_min_contrast_error,
          cfg.w_color_low_contrast⟩]) ∧
    (¬ mc < cfg.color_min_contrast_error → mc < cfg.color_min_contrast_warn →
      colorLowContrast_check slide cfg =
        [⟨"color/low_contrast", "warning",
          contrastWarnMsg mc cfg.color_min_contrast_warn,
          Int.fdiv cfg.w_color_low_contrast 2⟩]) ∧
    (¬ mc < cfg.color_min_contrast_error → ¬ mc < cfg.color_min_contrast_warn →
      colorLowContrast_check slide cfg = []) := by
  simp only [colorLowContrast_check, hmc]
  rw [if_neg (by rw [hdis]; exact Bool.false_ne_true)]
  refine ⟨fun h1 => ?_, fun h1 h2 => ?_, fun h1 h2 => ?_⟩
  · rw [if_pos h1]
  · rw [if_neg h1, if_pos h2]
  · rw [if_neg h1, if_neg h2]

/-- Witness for C5: a slide with minimum contrast 2 under the default
configuration takes the error branch with the full deduction. -/
theorem c5_witness :
    colorLowContrast_check slideContrast2 defaultConfig =
      [⟨"color/low_contrast", "error",
        contrastErrMsg 2 defaultConfig.color_min_contrast_error,
        defaultConfig.w_color_low_contrast⟩] :=
  (c5_low_contrast_branches slideContrast2 defaultConfig 2 rfl rfl).1
    (by norm_num [defaultConfig])

theorem scoreVal_nonneg (diags : List Finding) : 0 ≤ scoreVal diags :=
  le_max_left 0 _

theorem scoreVal_le_100 (diags : List Finding) : scoreVal diags ≤ 100 :=
  max_le (by norm_num) (min_le_left 100 _)

/-- The bucket fold never decreases its accumulator. -/
theorem bucketDeduction_foldl_ge (patterns : List String) (diags : List Finding) :
    ∀ acc : Int, acc ≤ diags.foldl (fun acc f =>
      match patterns.find? (fun p => patMatch p f.rule) with
      | some _ => acc + max 0 f.deduction
      | none => acc) acc := by
  induction diags with
  | nil => intro acc; exact le_refl acc
  | cons f t ih =>
    intro acc
    simp only [List.foldl_cons]
    cases hfind : patterns.find? (fun p => patMatch p f.rule) with
    | none => simpa [hfind] using ih acc
    | some q =>
      have h1 : acc ≤ acc + max 0 f.deduction :=
        le_add_of_nonneg_right (le_max_left 0 _)
      have h2 := ih (acc + max 0 f.deduction)
      simp only [hfind]
      exact le_trans h1 h2

theorem bucketDeduction_nonneg (patterns : List String) (diags : List Finding) :
    0 ≤ bucketDeduction patterns diags :=
  bucketDeduction_foldl_ge patterns diags 0

theorem bucketScoreVal_nonneg (patterns : List String) (diags : List Finding) :
    0 ≤ bucketScoreVal patterns diags :=
  le_max_left 0 _

theorem bucketScoreVal_le_100 (patterns : List String) (diags : List Finding) :
    bucketScoreVal patterns diags ≤ 100 := by
  have h := bucketDeduction_nonneg patterns diags
  unfold bucketScoreVal
  refine max_le (by norm_num) (by omega)

/-- A member of `assocSet m k v` is the new binding or an old one. -/
theorem mem_assocSet {α : Type} {q : String × α} {m : List (String × α)}
    {k : String} {v : α} (h : q ∈ assocSet m k v) : q = (k, v) ∨ q ∈ m := by
  unfold assocSet at h
  split at h
  · obtain ⟨p, hp, hq⟩ := List.mem_map.mp h
    by_cases hk : p.1 = k
    · left
      rw [← hq, if_pos hk]
    · right
      rw [← hq, if_neg hk]
      exact hp
  · rcases List.mem_append.mp h with h | h
    · right; exact h
    · left
      simpa using h

/-- A member of the bucket-score fold comes from the folded list or from
the base dict. -/
theorem mem_bucketFold {α β : Type} (g : String × β → α) :
    ∀ (L : List (String × β)) (base : List (String × α)) (q : String × α),
      q ∈ L.foldl (fun acc nb => assocSet acc nb.1 (g nb)) base →
      (∃ nb ∈ L, q = (nb.1, g nb)) ∨ q ∈ base := by
  intro L
  induction L with
  | nil =>
    intro base q h
    right
    exact h
  | cons b t ih =>
    intro base q h
    simp only [List.foldl_cons] at h
    rcases ih (assocSet base b.1 (g b)) q h with h2 | h2
    · obtain ⟨nb, hnb, hq⟩ := h2
      exact Or.inl ⟨nb, List.mem_cons_of_mem b hnb, hq⟩
    · rcases mem_assocSet h2 with h3 | h3
      · exact Or.inl ⟨b, List.mem_cons_self b t, h3⟩
      · exact Or.inr h3

theorem run_rules_score_eq (slide : Slide) (cfg : Config) :
    (run_rules_on_slide slide cfg).2.1 =
      scoreVal (run_rules_on_slide slide cfg).1 := rfl

theorem run_rules_buckets_eq (slide : Slide) (cfg : Config) :
    (run_rules_on_slide slide cfg).2.2 =
      (applyPatch cfg slide.overrides.rules).buckets.foldl (fun acc nb =>
        assocSet acc nb.1
          (bucketScoreVal nb.2 (run_rules_on_slide slide cfg).1)) [] := rfl

/-- `evalOne` on a slide with no duplicate-title findings. -/
theorem evalOne_eq_pos {slides : List Slide} {cfg : Config} {s : Slide}
    (hd : (check_duplicate_titles slides s.index).isEmpty = true) :
    evalOne slides cfg s =
      ⟨s.index, s.uuid, s.title, s.body, s.metrics,
       (run_rules_on_slide s cfg).1, (run_rules_on_slide s cfg).2.1,
       (run_rules_on_slide s cfg).2.2⟩ := by
  simp only [evalOne]
  rw [if_pos hd]

/-- `evalOne` on a slide with duplicate-title findings: re-sort, recompute
the score, rewrite the buckets declared in `cfg`. -/
theorem evalOne_eq_neg {slides : List Slide} {cfg : Config} {s : Slide}
    (hd : ¬ (check_duplicate_titles slides s.index).isEmpty = true) :
    evalOne slides cfg s =
      ⟨s.index, s.uuid, s.title, s.body, s.metrics,
       sortFindings ((run_rules_on_slide s cfg).1 ++
         check_duplicate_titles slides s.index),
       scoreVal (sortFindings ((run_rules_on_slide s cfg).1 ++
         check_duplicate_titles slides s.index)),
       cfg.buckets.foldl (fun acc nb =>
         assocSet acc nb.1 (bucketScoreVal nb.2
           (sortFindings ((run_rules_on_slide s cfg).1 ++
             check_duplicate_titles slides s.index))))
         (run_rules_on_slide s cfg).2.2⟩ := by
  simp only [evalOne]
  rw [if_neg hd]

/-- Every bucket entry a rule run produces is clamped to [0, 100]. -/
theorem run_rules_bucket_bounds (slide : Slide) (cfg : Config) :
    ∀ p ∈ (run_rules_on_slide slide cfg).2.2, 0 ≤ p.2 ∧ p.2 ≤ 100 := by
  intro p hp
  rw [run_rules_buckets_eq] at hp
  rcases mem_bucketFold
      (fun nb => bucketScoreVal nb.2 (run_rules_on_slide slide cfg).1)
      _ _ p hp with ⟨nb, _, rfl⟩ | h
  · exact ⟨bucketScoreVal_nonneg _ _, bucketScoreVal_le_100 _ _⟩
  · simp at h

/-- Every result of `evalOne` has its score and all bucket entries in
[0, 100]. -/
theorem evalOne_bounds (slides : List Slide) (cfg : Config) (s : Slide) :
    (0 ≤ (evalOne slides cfg s).score ∧ (evalOne slides cfg s).score ≤ 100) ∧
    ∀ p ∈ (evalOne slides cfg s).bucket_scores, 0 ≤ p.2 ∧ p.2 ≤ 100 := by
  by_cases hd : (check_duplicate_titles slides s.index).isEmpty = true
  · rw [evalOne_eq_pos hd]
    refine ⟨?_, ?_⟩
    · rw [run_rules_score_eq]
      exact ⟨scoreVal_nonneg _, scoreVal_le_100 _⟩
    · exact run_rules_bucket_bounds s cfg
  · rw [evalOne_eq_neg hd]
    refine ⟨⟨scoreVal_nonneg _, scoreVal_le_100 _⟩, ?_⟩
    intro p hp
    rcases mem_bucketFold
        (fun nb => bucketScoreVal nb.2
          (sortFindings ((run_rules_on_slide s cfg).1 ++
            check_duplicate_titles slides s.index)))
        _ _ p hp with ⟨nb, _, rfl⟩ | h
    · exact ⟨bucketScoreVal_nonneg _ _, bucketScoreVal_le_100 _ _⟩
    · exact run_rules_bucket_bounds s cfg p h

/-- Claim C4: for every finding set (deductions may sum past 100) the
computed overall score and every bucket score lie in [0, 100]; and every
result produced by `evaluate_all` has score and bucket scores in [0, 100]. -/
theorem c4_scores_clamped :
    (∀ diags : List Finding, 0 ≤ scoreVal diags ∧ scoreVal diags ≤ 100) ∧
    (∀ (patterns : List String) (diags : List Finding),
      0 ≤ bucketScoreVal patterns diags ∧ bucketScoreVal patterns diags ≤ 100) ∧
    (∀ (slides : List Slide) (cfg : Config) (r : SlideResult),
      r ∈ evaluate_all slides cfg →
      (0 ≤ r.score ∧ r.score ≤ 100) ∧
      ∀ p ∈ r.bucket_scores, 0 ≤ p.2 ∧ p.2 ≤ 100) := by
  refine ⟨fun diags => ⟨scoreVal_nonneg diags, scoreVal_le_100 diags⟩,
    fun patterns diags =>
      ⟨bucketScoreVal_nonneg patterns diags, bucketScoreVal_le_100 patterns diags⟩,
    ?_⟩
  intro slides cfg r hr
  obtain ⟨s, _, rfl⟩ := List.mem_map.mp hr
  exact evalOne_bounds slides cfg s

/-- Witness for C4: the bounds instantiated on a concrete evaluation. -/
theorem c4_witness :
    (0 ≤ ((evaluate_all [slideSame1] defaultConfig).getD 0 dfltResult).score ∧
      ((evaluate_all [slideSame1] defaultConfig).getD 0 dfltResult).score ≤ 100) ∧
    ∀ p ∈ ((evaluate_all [slideSame1] defaultConfig).getD 0
        dfltResult).bucket_scores, 0 ≤ p.2 ∧ p.2 ≤ 100 :=
  c4_scores_clamped.2.2 [slideSame1] defaultConfig
    ((evaluate_all [slideSame1] defaultConfig).getD 0 dfltResult) (by decide)

/-- The bucket fold equals the clamped-at-zero deduction sum over the
findings matched by some pattern: the break-on-first-match inner loop adds
each matching finding exactly once, no matter how many patterns match. -/
theorem bucketDeduction_eq_filter_sum (patterns : List String) :
    ∀ (diags : List Finding) (acc : Int),
      diags.foldl (fun acc f =>
        match patterns.find? (fun p => patMatch p f.rule) with
        | some _ => acc + max 0 f.deduction
        | none => acc) acc =
      acc + ((diags.filter (fun f =>
        patterns.any (fun p => patMatch p f.rule))).map
          (fun f => max 0 f.deduction)).sum := by
  intro diags
  induction diags with
  | nil => intro acc; simp
  | cons f t ih =>
    intro acc
    simp only [List.foldl_cons]
    cases hfind : patterns.find? (fun p => patMatch p f.rule) with
    | none =>
      have hany : patterns.any (fun p => patMatch p f.rule) = false := by
        rw [List.any_eq_false]
        intro p hp
        exact List.find?_eq_none.mp hfind p hp
      simp only [hfind, List.filter_cons, hany]
      exact ih acc
    | some q =>
      have hany : patterns.any (fun p => patMatch p f.rule) = true := by
        rw [List.any_eq_true]
        have hq := List.find?_some hfind
        exact ⟨q, List.mem_of_find?_eq_some hfind, hq⟩
      simp only [hfind, List.filter_cons, hany, if_true, List.map_cons,
        List.sum_cons]
      rw [ih (acc + max 0 f.deduction)]
      ring

/-- Claim C7 (refinement): for nonnegative deductions (the data-model
invariant), the bucket score the code computes equals the spec's formula
`clamp(100 − Σ deductions of findings matching the bucket's patterns, 0,
100)`, each finding deducted at most once even when several patterns match
it. -/
theorem c7_bucket_score_refines_spec (patterns : List String)
    (diags : List Finding) (hnn : ∀ f ∈ diags, 0 ≤ f.deduction) :
    bucketScoreVal patterns diags = specBucketScore patterns diags := by
  have hmap : (diags.filter (fun f =>
      patterns.any (fun p => patMatch p f.rule))).map
        (fun f => max 0 f.deduction) =
      (diags.filter (fun f =>
        patterns.any (fun p => patMatch p f.rule))).map (fun f => f.deduction) := by
    apply List.map_congr_left
    intro f hf
    exact max_eq_right (hnn f (List.mem_of_mem_filter hf))
  have hbd : bucketDeduction patterns diags =
      ((diags.filter (fun f => patterns.any (fun p => patMatch p f.rule))).map
        (fun f => f.deduction)).sum := by
    unfold bucketDeduction
    rw [bucketDeduction_eq_filter_sum patterns diags 0, hmap]
    ring
  have hsum : 0 ≤ ((diags.filter (fun f =>
      patterns.any (fun p => patMatch p f.rule))).map
        (fun f => f.deduction)).sum := by
    apply List.sum_nonneg
    intro x hx
    obtain ⟨f, hf, rfl⟩ := List.mem_map.mp hx
    exact hnn f (List.mem_of_mem_filter hf)
  unfold bucketScoreVal specBucketScore
  rw [hbd]
  rw [min_eq_right (max_le (by norm_num) (by omega))]

/-- Witness for C7: a finding matched by both a wildcard pattern and an
exact pattern of the same bucket is deducted once (score 90, not 80). -/
theorem c7_witness :
    bucketScoreVal ["color/*", "color/low_contrast"]
        [⟨"color/low_contrast", "error", "m", 10⟩] =
      specBucketScore ["color/*", "color/low_contrast"]
        [⟨"color/low_contrast", "error", "m", 10⟩] ∧
    bucketScoreVal ["color/*", "color/low_contrast"]
        [⟨"color/low_contrast", "error", "m", 10⟩] = 90 :=
  ⟨c7_bucket_score_refines_spec _ _ (by decide), by decide⟩

/-- Claim C2 (code bug): with slide `slideSame1` already cached (from a
prior analysis of it alone) and `slideSame2` a cache miss sharing the
non-empty title `Same`, the analyze pipeline's duplicate-title pass sees
only the cache-miss slides, so NEITHER result carries the
structure/duplicate_titles finding — whereas a fresh evaluation of both
slides together attaches the finding to each of them. -/
theorem c2_cache_dup_bug :
    ((analyze_results [slideSame1, slideSame2]
        (updated_cache [slideSame1] [] defaultConfig) defaultConfig).map
      (fun r => r.diagnostics.countP
        (fun f => f.rule == "structure/duplicate_titles"))) = [0, 0] ∧
    ((evaluate_all [slideSame1, slideSame2] defaultConfig).map
      (fun r => r.diagnostics.countP
        (fun f => f.rule == "structure/duplicate_titles"))) = [1, 1] ∧
    (analyze_results [slideSame1, slideSame2]
        (updated_cache [slideSame1] [] defaultConfig) defaultConfig).map
      (fun r => r.score) = [95, 95] ∧
    (evaluate_all [slideSame1, slideSame2] defaultConfig).map
      (fun r => r.score) = [90, 90] := by
  refine ⟨by decide, by decide, by decide, by decide⟩

theorem mem_firstDedup_aux :
    ∀ (l acc : List String) (x : String),
      x ∈ l.foldl (fun acc t => if t ∈ acc then acc else acc ++ [t]) acc ↔
        x ∈ acc ∨ x ∈ l := by
  intro l
  induction l with
  | nil =>
    intro acc x
    simp
  | cons t ts ih =>
    intro acc x
    simp only [List.foldl_cons]
    by_cases ht : t ∈ acc
    · rw [if_pos ht, ih]
      constructor
      · rintro (h | h)
        · exact Or.inl h
        · exact Or.inr (List.mem_cons_of_mem t h)
      · rintro (h | h)
        · exact Or.inl h
        · rcases List.mem_cons.mp h with rfl | h2
          · exact Or.inl ht
          · exact Or.inr h2
    · rw [if_neg ht, ih]
      simp only [List.mem_append, List.mem_singleton, List.mem_cons]
      tauto

theorem mem_firstDedup {l : List String} {x : String} :
    x ∈ firstDedup l ↔ x ∈ l := by
  unfold firstDedup
  rw [mem_firstDedup_aux]
  simp

theorem nodup_firstDedup_aux :
    ∀ (l acc : List String), acc.Nodup →
      (l.foldl (fun acc t => if t ∈ acc then acc else acc ++ [t]) acc).Nodup := by
  intro l
  induction l with
  | nil => intro acc h; exact h
  | cons t ts ih =>
    intro acc h
    simp only [List.foldl_cons]
    by_cases ht : t ∈ acc
    · rw [if_pos ht]
      exact ih acc h
    · rw [if_neg ht]
      refine ih (acc ++ [t]) (List.Nodup.append h (List.nodup_singleton t) ?_)
      intro a ha hb
      rw [List.mem_singleton] at hb
      subst hb
      exact ht ha

theorem nodup_firstDedup (l : List String) : (firstDedup l).Nodup :=
  nodup_firstDedup_aux l [] List.nodup_nil

/-- If the images under `f` are all distinct, filtering for the image of a
member yields exactly that member. -/
theorem filter_beq_singleton {α β : Type} [DecidableEq β] (f : α → β) :
    ∀ (l : List α) (a : α), (l.map f).Nodup → a ∈ l →
      l.filter (fun x => f x == f a) = [a] := by
  intro l
  induction l with
  | nil =>
    intro a _ h
    simp at h
  | cons b t ih =>
    intro a hnodup hmem
    have hn : (∀ x ∈ t, ¬ f x = f b) ∧ (t.map f).Nodup := by simpa using hnodup
    rcases List.mem_cons.mp hmem with rfl | hmem2
    · rw [List.filter_cons, if_pos (by simp)]
      have ht : t.filter (fun x => f x == f a) = [] := by
        rw [List.filter_eq_nil_iff]
        intro x hx
        simp only [beq_iff_eq]
        exact hn.1 x hx
      rw [ht]
    · have hb : ¬ ((f b == f a) = true) := by
        simp only [beq_iff_eq]
        intro hEq
        exact hn.1 a hmem2 hEq.symm
      rw [List.filter_cons, if_neg hb]
      exact ih a hn.2 hmem2

theorem foldr_append_nil {α β : Type} (g : α → List β) :
    ∀ L : List α, (∀ x ∈ L, g x = []) →
      L.foldr (fun t acc => g t ++ acc) [] = [] := by
  intro L
  induction L with
  | nil => intro _; rfl
  | cons c u ih =>
    intro h
    simp only [List.foldr_cons]
    rw [h c (List.mem_cons_self c u),
      ih (fun x hx => h x (List.mem_cons_of_mem c hx))]
    rfl

/-- A foldr of list concatenations over a duplicate-free list where all
entries but one contribute nothing equals that one contribution. -/
theorem foldr_append_eq_of_single {α β : Type} (g : α → List β) :
    ∀ (L : List α) (t0 : α), L.Nodup → t0 ∈ L →
      (∀ t ∈ L, t ≠ t0 → g t = []) →
      L.foldr (fun t acc => g t ++ acc) [] = g t0 := by
  intro L
  induction L with
  | nil =>
    intro t0 _ h
    simp at h
  | cons b t ih =>
    intro t0 hnodup hmem hothers
    have hn := List.nodup_cons.mp hnodup
    simp only [List.foldr_cons]
    rcases List.mem_cons.mp hmem with rfl | hmem2
    · rw [foldr_append_nil g t
        (fun x hx => hothers x (List.mem_cons_of_mem t0 hx)
          (fun hEq => hn.1 (hEq ▸ hx)))]
      simp
    · have hbne : b ≠ t0 := fun hEq => hn.1 (hEq ▸ hmem2)
      rw [hothers b (List.mem_cons_self b t) hbne]
      rw [List.nil_append]
      exact ih t0 hn.2 hmem2
        (fun x hx hne => hothers x (List.mem_cons_of_mem b hx) hne)

/-- With pairwise-distinct slide indices, index equality pins down the
slide. -/
theorem slide_eq_of_index_eq {slides : List Slide} {s x : Slide}
    (hinj : (slides.map (fun y => y.index)).Nodup) (hs : s ∈ slides)
    (hx : x ∈ slides) (hidx : x.index = s.index) : x = s := by
  have hnd : slides.Nodup := List.Nodup.of_map _ hinj
  exact (List.nodup_map_iff_inj_on hnd).mp hinj x hx s hs hidx

/-- Under distinct indices, a slide whose non-empty title is shared by at
least two slides receives exactly the one duplicate-title finding built
from its own title group. -/
theorem check_dup_eq {slides : List Slide} {s : Slide}
    (hinj : (slides.map (fun y => y.index)).Nodup) (hs : s ∈ slides)
    (htitle : ¬ s.title = "")
    (hdup : 2 ≤ (slides.filter (fun x => x.title == s.title)).length) :
    check_duplicate_titles slides s.index =
      [dupTitleFinding s.title (titleIndices slides s.title).length] := by
  have hmemL : s.title ∈ firstDedup (nonEmptyTitles slides) := by
    rw [mem_firstDedup]
    exact List.mem_map.mpr
      ⟨s, List.mem_filter.mpr ⟨hs, by simp [htitle]⟩, rfl⟩
  have hothers : ∀ t, ¬ t = s.title →
      (titleIndices slides t).filter (fun i => i == s.index) = [] := by
    intro t hne
    unfold titleIndices
    rw [List.filter_map]
    rw [List.filter_eq_nil_iff.mpr ?_]
    · simp
    · intro x hx
      have hx2 := List.mem_filter.mp hx
      simp only [Function.comp, beq_iff_eq]
      intro hidx
      have hxs : x = s := slide_eq_of_index_eq hinj hs hx2.1 hidx
      apply hne
      have := hx2.2
      rw [hxs] at this
      exact (beq_iff_eq.mp this).symm
  have hself : (titleIndices slides s.title).filter (fun i => i == s.index) =
      [s.index] := by
    unfold titleIndices
    rw [List.filter_map]
    have hFnodup :
        ((slides.filter (fun x => x.title == s.title)).map
          (fun y => y.index)).Nodup :=
      List.Sublist.nodup (List.Sublist.map _ (List.filter_sublist slides)) hinj
    have hsF : s ∈ slides.filter (fun x => x.title == s.title) :=
      List.mem_filter.mpr ⟨hs, by simp⟩
    have hfs := filter_beq_singleton (fun y : Slide => y.index)
      (slides.filter (fun x => x.title == s.title)) s hFnodup hsF
    have hcomp :
        ((fun i => i == s.index) ∘ fun y : Slide => y.index) =
          (fun x : Slide => x.index == s.index) := rfl
    rw [hcomp, hfs]
    rfl
  have hlen : 1 < (titleIndices slides s.title).length := by
    unfold titleIndices
    rw [List.length_map]
    omega
  unfold check_duplicate_titles
  rw [foldr_append_eq_of_single
    (fun t =>
      let indices := titleIndices slides t
      if 1 < indices.length then
        (indices.filter (fun i => i == s.index)).map
          (fun _ => dupTitleFinding t indices.length)
      else [])
    (firstDedup (nonEmptyTitles slides)) s.title
    (nodup_firstDedup (nonEmptyTitles slides)) hmemL ?_]
  · simp only []
    rw [if_pos hlen, hself]
    simp
  · intro t _ hne
    simp only []
    rw [hothers t hne]
    simp

theorem run_rules_diags_eq (s : Slide) (cfg : Config) :
    (run_rules_on_slide s cfg).1 =
      sortFindings (REGISTRY.foldl (fun acc r =>
        if s.overrides.disabled.any (fun d => r.1 == d) then acc
        else acc ++ r.2 s (applyPatch cfg s.overrides.rules)) []) := rfl

/-- A finding accumulated by the registry loop comes from the accumulator
or from some registered rule's check. -/
theorem reg_fold_mem {s : Slide} {eff : Config} {f : Finding} :
    ∀ (reg : List (String × (Slide → Config → List Finding)))
      (acc : List Finding),
      f ∈ reg.foldl (fun acc r =>
        if s.overrides.disabled.any (fun d => r.1 == d) then acc
        else acc ++ r.2 s eff) acc →
      f ∈ acc ∨ ∃ r ∈ reg, f ∈ r.2 s eff := by
  intro reg
  induction reg with
  | nil =>
    intro acc h
    exact Or.inl h
  | cons r rs ih =>
    intro acc h
    simp only [List.foldl_cons] at h
    by_cases hd : s.overrides.disabled.any (fun d => r.1 == d) = true
    · rw [if_pos hd] at h
      rcases ih acc h with h2 | ⟨r2, hr2, hf⟩
      · exact Or.inl h2
      · exact Or.inr ⟨r2, List.mem_cons_of_mem r hr2, hf⟩
    · rw [if_neg hd] at h
      rcases ih (acc ++ r.2 s eff) h with h2 | ⟨r2, hr2, hf⟩
      · rcases List.mem_append.mp h2 with h3 | h3
        · exact Or.inl h3
        · exact Or.inr ⟨r, List.mem_cons_self r rs, h3⟩
      · exact Or.inr ⟨r2, List.mem_cons_of_mem r hr2, hf⟩

/-- Every registered rule only ever emits findings carrying its own rule
id. -/
theorem registry_rule_ids :
    ∀ r ∈ REGISTRY, ∀ (s : Slide) (c : Config) (f : Finding),
      f ∈ r.2 s c → f.rule = r.1 := by
  intro r hr s c f hf
  simp only [REGISTRY, List.mem_cons, List.not_mem_nil, or_false] at hr
  rcases hr with rfl | rfl | rfl | rfl | rfl | rfl | rfl | rfl | rfl | rfl | rfl
  all_goals
    simp only [titleRequired_check, titleTooLong_check, contentTooLong_check,
      contentTooShort_check, bulletsTooMany_check, linesTooMany_check,
      colorLowContrast_check, colorTooMany_check, altRequired_check,
      bareUrls_check, codeTooLong_check] at hf
  all_goals repeat' split at hf
  all_goals simp_all

/-- No registered rule emits a structure/duplicate_titles finding: the
per-slide rule run never produces one. -/
theorem run_rules_no_dup (s : Slide) (cfg : Config) :
    ∀ f ∈ (run_rules_on_slide s cfg).1,
      ¬ f.rule = "structure/duplicate_titles" := by
  intro f hf
  rw [run_rules_diags_eq] at hf
  have hf0 := mem_sortFindings.mp hf
  rcases reg_fold_mem REGISTRY [] hf0 with h | ⟨r, hr, hfr⟩
  · simp at h
  · have hid := registry_rule_ids r hr s (applyPatch cfg s.overrides.rules) f hfr
    have hmem : r.1 ∈ REGISTRY.map (fun p => p.1) := List.mem_map_of_mem _ hr
    rw [hid]
    simp only [REGISTRY, List.map_cons, List.map_nil, List.mem_cons,
      List.not_mem_nil, or_false] at hmem
    rcases hmem with h | h | h | h | h | h | h | h | h | h | h <;>
      rw [h] <;> decide

theorem assocLookup_map_set {α : Type} (m : List (String × α)) (k : String)
    (v : α) (hmem : k ∈ m.map (fun p => p.1)) :
    assocLookup (m.map (fun p => if p.1 = k then (k, v) else p)) k = some v := by
  induction m with
  | nil => simp at hmem
  | cons p t ih =>
    rw [List.map_cons] at hmem
    by_cases hp : p.1 = k
    · simp only [List.map_cons, if_pos hp, assocLookup]
      simp
    · have hk : k ∈ t.map (fun p => p.1) := by
        rcases List.mem_cons.mp hmem with h | h
        · exact absurd h.symm hp
        · exact h
      simp only [List.map_cons, if_neg hp, assocLookup, if_neg hp]
      exact ih hk

theorem assocLookup_append_not_mem {α : Type} (m : List (String × α))
    (k : String) (rest : List (String × α)) (hmem : ∀ p ∈ m, ¬ p.1 = k) :
    assocLookup (m ++ rest) k = assocLookup rest k := by
  induction m with
  | nil => rfl
  | cons p t ih =>
    simp only [List.cons_append, assocLookup,
      if_neg (hmem p (List.mem_cons_self p t))]
    exact ih (fun q hq => hmem q (List.mem_cons_of_mem p hq))

theorem assocLookup_assocSet_self {α : Type} (m : List (String × α))
    (k : String) (v : α) : assocLookup (assocSet m k v) k = some v := by
  unfold assocSet
  split
  case isTrue h => exact assocLookup_map_set m k v h
  case isFalse h =>
    rw [assocLookup_append_not_mem m k [(k, v)]
      (fun p hp hpk => h (hpk ▸ List.mem_map_of_mem _ hp))]
    simp [assocLookup]

theorem assocLookup_map_set_ne {α : Type} (m : List (String × α))
    (k q : String) (v : α) (h : ¬ q = k) :
    assocLookup (m.map (fun p => if p.1 = k then (k, v) else p)) q =
      assocLookup m q := by
  induction m with
  | nil => rfl
  | cons p t ih =>
    simp only [List.map_cons]
    by_cases hp : p.1 = k
    · simp only [assocLookup, if_pos hp]
      rw [if_neg (fun hq : k = q => h hq.symm)]
      rw [if_neg (fun hq : p.1 = q => h (by rw [← hq, hp]))]
      exact ih
    · simp only [assocLookup, if_neg hp]
      by_cases hq : p.1 = q
      · rw [if_pos hq, if_pos hq]
      · rw [if_neg hq, if_neg hq]
        exact ih

theorem assocLookup_append_single_ne {α : Type} (m : List (String × α))
    (k q : String) (v : α) (h : ¬ q = k) :
    assocLookup (m ++ [(k, v)]) q = assocLookup m q := by
  induction m with
  | nil =>
    simp only [List.nil_append, assocLookup]
    rw [if_neg (fun hq : k = q => h hq.symm)]
  | cons p t ih =>
    simp only [List.cons_append, assocLookup]
    by_cases hq : p.1 = q
    · rw [if_pos hq, if_pos hq]
    · rw [if_neg hq, if_neg hq]
      exact ih

theorem assocLookup_assocSet_ne {α : Type} (m : List (String × α))
    (k q : String) (v : α) (h : ¬ q = k) :
    assocLookup (assocSet m k v) q = assocLookup m q := by
  unfold assocSet
  split
  · exact assocLookup_map_set_ne m k q v h
  · exact assocLookup_append_single_ne m k q v h

theorem assocLookup_foldSet_not_mem {α β : Type} (g : String × β → α)
    (L : List (String × β)) (k : String) (hk : ∀ nb ∈ L, ¬ nb.1 = k) :
    ∀ base : List (String × α),
      assocLookup (L.foldl (fun acc nb => assocSet acc nb.1 (g nb)) base) k =
        assocLookup base k := by
  induction L with
  | nil => intro base; rfl
  | cons b t ih =>
    intro base
    simp only [List.foldl_cons]
    rw [ih (fun nb hnb => hk nb (List.mem_cons_of_mem b hnb))
      (assocSet base b.1 (g b))]
    exact assocLookup_assocSet_ne base b.1 k (g b)
      (fun hq => hk b (List.mem_cons_self b t) hq.symm)

/-- Looking up a key of the folded bucket list returns the recomputed value
for that key, provided the folded keys are pairwise distinct. -/
theorem assocLookup_foldSet_mem {α β : Type} (g : String × β → α) :
    ∀ (L : List (String × β)) (base : List (String × α)) (nb : String × β),
      nb ∈ L → (L.map (fun p => p.1)).Nodup →
      assocLookup (L.foldl (fun acc p => assocSet acc p.1 (g p)) base) nb.1 =
        some (g nb) := by
  intro L
  induction L with
  | nil =>
    intro _ nb h
    simp at h
  | cons b t ih =>
    intro base nb hmem hnodup
    rw [List.map_cons] at hnodup
    have hn := List.nodup_cons.mp hnodup
    simp only [List.foldl_cons]
    rcases List.mem_cons.mp hmem with rfl | hmem2
    · rw [assocLookup_foldSet_not_mem g t nb.1
        (fun x hx hEq => hn.1 (hEq ▸ List.mem_map_of_mem _ hx))
        (assocSet base nb.1 (g nb))]
      exact assocLookup_assocSet_self base nb.1 (g nb)
    · exact ih (assocSet base b.1 (g b)) nb hmem2 hn.2

/-- Amended C3: in a slide set with pairwise-distinct indices evaluated
under a configuration with distinct bucket names, every slide whose
non-empty title occurs on at least 2 slides gets exactly one
structure/duplicate_titles warning finding with the fixed deduction 5; its
final finding list is the re-sort (by rule, message) of the per-slide
findings plus the duplicate finding; its score is recomputed from scratch
as `clamp(100 − Σ max(0, deduction), 0, 100)` over the final finding set;
and every bucket declared in the evaluation configuration is recomputed
from scratch over the final finding set.  (Buckets introduced only by a
per-slide override patch are NOT recomputed — see the counterexample.) -/
theorem c3_duplicate_title_pass (slides : List Slide) (cfg : Config) (i : Nat)
    (hi : i < slides.length)
    (hinj : (slides.map (fun y => y.index)).Nodup)
    (hbk : (cfg.buckets.map (fun b => b.1)).Nodup)
    (htitle : ¬ (slides.getD i dfltSlide).title = "")
    (hdup : 2 ≤ (slides.filter
      (fun x => x.title == (slides.getD i dfltSlide).title)).length) :
    i < (evaluate_all slides cfg).length ∧
    ((evaluate_all slides cfg).getD i dfltResult).diagnostics.countP
      (fun f => f.rule == "structure/duplicate_titles") = 1 ∧
    (∀ f ∈ ((evaluate_all slides cfg).getD i dfltResult).diagnostics,
      f.rule = "structure/duplicate_titles" →
      f.severity = "warning" ∧ f.deduction = 5) ∧
    List.Sorted keyLe
      ((evaluate_all slides cfg).getD i dfltResult).diagnostics ∧
    (((evaluate_all slides cfg).getD i dfltResult).diagnostics).Perm
      ((run_rules_on_slide (slides.getD i dfltSlide) cfg).1 ++
        check_duplicate_titles slides (slides.getD i dfltSlide).index) ∧
    ((evaluate_all slides cfg).getD i dfltResult).score =
      scoreVal ((evaluate_all slides cfg).getD i dfltResult).diagnostics ∧
    ∀ nb ∈ cfg.buckets,
      assocLookup
        ((evaluate_all slides cfg).getD i dfltResult).bucket_scores nb.1 =
      some (bucketScoreVal nb.2
        ((evaluate_all slides cfg).getD i dfltResult).diagnostics) := by
  have hs : slides.getD i dfltSlide ∈ slides := by
    rw [List.getD_eq_getElem slides dfltSlide hi]
    exact List.getElem_mem hi
  have hcd := check_dup_eq hinj hs htitle hdup
  have hne : ¬ (check_duplicate_titles slides
      (slides.getD i dfltSlide).index).isEmpty = true := by
    rw [hcd]
    simp
  have hlen : (evaluate_all slides cfg).length = slides.length := by
    unfold evaluate_all
    rw [List.length_map]
  have hi2 : i < (evaluate_all slides cfg).length := by omega
  have hr : (evaluate_all slides cfg).getD i dfltResult =
      evalOne slides cfg (slides.getD i dfltSlide) := by
    rw [List.getD_eq_getElem _ _ hi2]
    unfold evaluate_all
    rw [List.getElem_map]
    rw [List.getD_eq_getElem slides dfltSlide hi]
  rw [hr, evalOne_eq_neg hne]
  dsimp only
  refine ⟨hi2, ?_, ?_, sortFindings_sorted _, sortFindings_perm _, rfl, ?_⟩
  · have hperm := sortFindings_perm
      ((run_rules_on_slide (slides.getD i dfltSlide) cfg).1 ++
        check_duplicate_titles slides (slides.getD i dfltSlide).index)
    rw [List.Perm.countP_eq _ hperm, List.countP_append]
    have hbase : ((run_rules_on_slide (slides.getD i dfltSlide) cfg).1).countP
        (fun f => f.rule == "structure/duplicate_titles") = 0 := by
      rw [List.countP_eq_zero]
      intro f hf
      have := run_rules_no_dup (slides.getD i dfltSlide) cfg f hf
      simp [this]
    rw [hbase, hcd]
    simp [dupTitleFinding]
  · intro f hf hrule
    have hf2 := (sortFindings_perm _).mem_iff.mp hf
    rcases List.mem_append.mp hf2 with h | h
    · exact absurd hrule (run_rules_no_dup (slides.getD i dfltSlide) cfg f h)
    · rw [hcd] at h
      rw [List.mem_singleton] at h
      subst h
      exact ⟨rfl, rfl⟩
  · intro nb hnb
    exact assocLookup_foldSet_mem
      (fun nb => bucketScoreVal nb.2
        (sortFindings ((run_rules_on_slide (slides.getD i dfltSlide) cfg).1 ++
          check_duplicate_titles slides (slides.getD i dfltSlide).index)))
      cfg.buckets (run_rules_on_slide (slides.getD i dfltSlide) cfg).2.2 nb hnb
      hbk

/-- Witness for C3: three slides sharing the title `Same` (the spec's own
example), instantiated at slide 0 under the default configuration. -/
theorem c3_witness :
    0 < (evaluate_all [slideSame1, slideSame2, slideSame3]
      defaultConfig).length ∧
    ((evaluate_all [slideSame1, slideSame2, slideSame3]
        defaultConfig).getD 0 dfltResult).diagnostics.countP
      (fun f => f.rule == "structure/duplicate_titles") = 1 ∧
    (∀ f ∈ ((evaluate_all [slideSame1, slideSame2, slideSame3]
        defaultConfig).getD 0 dfltResult).diagnostics,
      f.rule = "structure/duplicate_titles" →
      f.severity = "warning" ∧ f.deduction = 5) ∧
    List.Sorted keyLe ((evaluate_all [slideSame1, slideSame2, slideSame3]
        defaultConfig).getD 0 dfltResult).diagnostics ∧
    (((evaluate_all [slideSame1, slideSame2, slideSame3]
        defaultConfig).getD 0 dfltResult).diagnostics).Perm
      ((run_rules_on_slide ([slideSame1, slideSame2, slideSame3].getD 0
          dfltSlide) defaultConfig).1 ++
        check_duplicate_titles [slideSame1, slideSame2, slideSame3]
          ([slideSame1, slideSame2, slideSame3].getD 0 dfltSlide).index) ∧
    ((evaluate_all [slideSame1, slideSame2, slideSame3]
        defaultConfig).getD 0 dfltResult).score =
      scoreVal ((evaluate_all [slideSame1, slideSame2, slideSame3]
        defaultConfig).getD 0 dfltResult).diagnostics ∧
    ∀ nb ∈ defaultConfig.buckets,
      assocLookup ((evaluate_all [slideSame1, slideSame2, slideSame3]
        defaultConfig).getD 0 dfltResult).bucket_scores nb.1 =
      some (bucketScoreVal nb.2
        ((evaluate_all [slideSame1, slideSame2, slideSame3]
          defaultConfig).getD 0 dfltResult).diagnostics) :=
  c3_duplicate_title_pass [slideSame1, slideSame2, slideSame3] defaultConfig 0
    (by decide) (by decide) (by decide) (by decide) (by decide)

/-- Counterexample for C3 as stated: a duplicate-title slide whose inline
patch declares an extra bucket over `structure/*`.  The duplicate pass
recomputes only the buckets of the evaluation configuration, so the stored
`extra` bucket score stays 100 even though recomputing it from scratch over
the final finding set (which contains the duplicate-title finding) gives
95. -/
theorem c3_counterexample :
    assocLookup ((evaluate_all [slidePatched, slideSame2]
        defaultConfig).getD 0 dfltResult).bucket_scores "extra" = some 100 ∧
    bucketScoreVal ["structure/*"]
      ((evaluate_all [slidePatched, slideSame2]
        defaultConfig).getD 0 dfltResult).diagnostics = 95 ∧
    ((evaluate_all [slidePatched, slideSame2]
        defaultConfig).getD 0 dfltResult).diagnostics.countP
      (fun f => f.rule == "structure/duplicate_titles") = 1 :=
  ⟨by decide, by decide, by decide⟩
